import Mathlib

/-!
Shallow embedding of the dapr components-contrib HTTP output binding.

The repository holds two variants of the same `http` package:
  * `src/bindings/http/http.go` — flat credentials (`user` / `password`
    fields directly on `httpMetadata`); `Invoke` uses the configured
    `method` and returns the response body plus a `status` metadata entry.
  * `src/unnamed/part_000` — nested credentials (a `credentials` pointer
    field); `Invoke` hardcodes `POST`, closes the body without reading it
    and returns `nil, nil`.

Namespace `HttpBinding` models the flat variant; `HttpBinding.Nested`
models the nested variant.  The HTTP transport (`client.Do`) and the body
reader (`ioutil.ReadAll`) are the environment: each call takes a
`transport : Request → DoOutcome` describing, for the request handed to
`client.Do`, whether `Do` failed, and otherwise the status line and the
outcome of reading the body.  Per the documented contract of Go
`net/http`, a response returned by `Do` with a nil error always carries a
non-nil `Body`; the defensive `resp != nil && resp.Body != nil` checks in
the source are therefore always true and the model treats them so.
`http.NewRequest` fails only on a syntactically malformed method or URL;
the spec treats both as opaque strings, so the model makes it total.
-/

namespace HttpBinding

/-- Byte values of a character in UTF-8, the encoding Go applies when a
string is converted to a byte slice. -/
def charUtf8 (c : Char) : List Nat :=
  let n := c.toNat
  if n < 128 then [n]
  else if n < 2048 then [192 + n / 64, 128 + n % 64]
  else if n < 65536 then [224 + n / 4096, 128 + n / 64 % 64, 128 + n % 64]
  else [240 + n / 262144, 128 + n / 4096 % 64, 128 + n / 64 % 64, 128 + n % 64]

/-- Bytes of a Go string: the UTF-8 encoding of its characters. -/
def strBytes (s : String) : List Nat :=
  s.toList.flatMap charUtf8

/-- Alphabet of `base64.StdEncoding`. -/
def b64Alphabet : List Char :=
  "ABCDEFGHIJKLMNOPQRSTUVWXYZabcdefghijklmnopqrstuvwxyz0123456789+/".toList

/-- Character for a 6-bit group under `base64.StdEncoding`. -/
def b64Char (n : Nat) : Char :=
  b64Alphabet.getD n 'A'

/-- Model of Go `base64.StdEncoding.EncodeToString`: standard base64 with
padding, three input bytes per four output characters. -/
def base64Encode : List Nat → String
  | [] => ""
  | [a] =>
      String.mk [b64Char (a / 4), b64Char (a % 4 * 16), '=', '=']
  | [a, b] =>
      String.mk [b64Char (a / 4), b64Char (a % 4 * 16 + b / 16),
                 b64Char (b % 16 * 4), '=']
  | a :: b :: c :: rest =>
      String.mk [b64Char (a / 4), b64Char (a % 4 * 16 + b / 16),
                 b64Char (b % 16 * 4 + c / 64), b64Char (c % 64)]
        ++ base64Encode rest

/-- Header map of a request; Go `http.Header.Set` replaces any previous
value for the key. -/
def headerSet (hs : List (String × String)) (k v : String) : List (String × String) :=
  hs.filter (fun p => !(p.1 == k)) ++ [(k, v)]

/-- Value a header map holds for a key, if any. -/
def headerGet (hs : List (String × String)) (k : String) : Option String :=
  (hs.find? (fun p => p.1 == k)).map (fun p => p.2)

/-- Model of Go `http.Request`, restricted to the parts this package
touches: method, URL, body bytes and headers. -/
structure Request where
  method : String
  url : String
  body : List Nat
  headers : List (String × String)
deriving Repr, DecidableEq

/-- Model of `http.NewRequest` (total; see the file comment). -/
def newRequest (method url : String) (body : List Nat) : Request :=
  { method := method, url := url, body := body, headers := [] }

/-- Model of `request.Header.Set`. -/
def Request.setHeader (r : Request) (k v : String) : Request :=
  { r with headers := headerSet r.headers k v }

/-- Model of `addBasicAuthHeader` (identical in both variants): sets
`Authorization: Basic base64(user:password)`. -/
def addBasicAuthHeader (request : Request) (user password : String) : Request :=
  let auth := user ++ ":" ++ password
  let encodedAuth := base64Encode (strBytes auth)
  request.setHeader "Authorization" ("Basic " ++ encodedAuth)

/-- Model of `addCredentials` of the flat variant: the header is added
only when both fields are non-empty. -/
def addCredentials (req : Request) (user password : String) : Request :=
  if user ≠ "" ∧ password ≠ "" then addBasicAuthHeader req user password else req

/-- Outcome of `client.Do` followed by `ioutil.ReadAll` on the body:
`Status` is the HTTP status line (for example `200 OK`), `bodyRead` the
result of reading the body to completion. -/
structure HttpResponse where
  Status : String
  bodyRead : Except String (List Nat)

/-- Result of `client.Do`: a transport error, or a response. -/
inductive DoOutcome where
  | doErr (e : String)
  | ok (resp : HttpResponse)

/-- Model of the `httpMetadata` struct of the flat variant. -/
structure httpMetadata where
  URL : String
  Method : String
  User : String
  Password : String
deriving Repr, DecidableEq

/-- Model of a JSON value, rich enough to make the error branches of
`json.Unmarshal` reachable. -/
inductive Json where
  | null
  | str (s : String)
  | num (n : Int)
  | obj (fields : List (String × Json))
deriving Repr

/-- Go value handed to `json.Marshal`: the property bag is a
`map[string]string`; `unsupported` stands for a value (channel, function)
that `Marshal` rejects, making its error branch real. -/
inductive GoValue where
  | strMap (props : List (String × String))
  | unsupported

/-- Model of `json.Marshal`: a string map marshals to an object whose
values are all JSON strings; unsupported values fail. -/
def jsonMarshal : GoValue → Except String Json
  | GoValue.strMap props => Except.ok (Json.obj (props.map (fun p => (p.1, Json.str p.2))))
  | GoValue.unsupported => Except.error "json: unsupported type"

/-- Field lookup inside a JSON object. -/
def jsonLookup (fields : List (String × Json)) (k : String) : Option Json :=
  (fields.find? (fun p => p.1 == k)).map (fun p => p.2)

/-- Model of `json.Unmarshal` filling one string-typed struct field: a
missing field or JSON null leaves the zero value, a JSON string is taken
as is, any other JSON value is a type error. -/
def parseStringField (fields : List (String × Json)) (k : String) : Except String String :=
  match jsonLookup fields k with
  | none => Except.ok ""
  | some Json.null => Except.ok ""
  | some (Json.str s) => Except.ok s
  | some _ => Except.error ("json: cannot unmarshal value into field " ++ k)

/-- Model of `json.Unmarshal` into the flat `httpMetadata` struct. -/
def unmarshalHttpMetadata : Json → Except String httpMetadata
  | Json.null => Except.ok { URL := "", Method := "", User := "", Password := "" }
  | Json.obj fields =>
      (match parseStringField fields "url" with
       | Except.error e => Except.error e
       | Except.ok u =>
         match parseStringField fields "method" with
         | Except.error e => Except.error e
         | Except.ok m =>
           match parseStringField fields "user" with
           | Except.error e => Except.error e
           | Except.ok us =>
             match parseStringField fields "password" with
             | Except.error e => Except.error e
             | Except.ok pw =>
                 Except.ok { URL := u, Method := m, User := us, Password := pw })
  | _ => Except.error "json: cannot unmarshal value into httpMetadata"

/-- Model of `HTTPSource.Init` of the flat variant: marshal the property
bag, then unmarshal into `httpMetadata`; either error is returned. -/
def Init (props : List (String × String)) : Except String httpMetadata :=
  match jsonMarshal (GoValue.strMap props) with
  | Except.error e => Except.error e
  | Except.ok b =>
    match unmarshalHttpMetadata b with
    | Except.error e => Except.error e
    | Except.ok m => Except.ok m

/-- Request built by `HTTPSource.get`: a GET to the given URL with
credentials attached. -/
def getRequest (h : httpMetadata) (url : String) : Request :=
  addCredentials (newRequest "GET" url []) h.User h.Password

/-- Observable behaviour of one `get` call: the request handed to
`client.Do`, the returned value, and whether `resp.Body.Close()` ran. -/
structure GetTrace where
  issued : Request
  result : Except String (List Nat)
  bodyClosed : Bool

/-- Model of `HTTPSource.get`: issue the GET, return the body bytes; the
body is closed only on the success path (on a `ReadAll` failure the
function returns before the close). -/
def get (h : httpMetadata) (url : String) (transport : Request → DoOutcome) : GetTrace :=
  let req := getRequest h url
  match transport req with
  | DoOutcome.doErr e => { issued := req, result := Except.error e, bodyClosed := false }
  | DoOutcome.ok resp =>
    match resp.bodyRead with
    | Except.error e => { issued := req, result := Except.error e, bodyClosed := false }
    | Except.ok b => { issued := req, result := Except.ok b, bodyClosed := true }

/-- Model of `bindings.ReadResponse` as this package builds it (only the
`Data` field is populated). -/
structure ReadResponse where
  Data : List Nat
deriving Repr, DecidableEq

/-- Observable behaviour of one `Read` call: the issued request, the
returned value, and the arguments of every handler invocation. -/
structure ReadTrace where
  issued : Request
  result : Except String Unit
  handlerCalls : List ReadResponse

/-- Model of `HTTPSource.Read`: run `get` on the configured URL, return
its error on failure; on success call the handler once with the body and
return nil — the handler result is discarded, exactly as in the source. -/
def Read (h : httpMetadata) (transport : Request → DoOutcome)
    (handler : ReadResponse → Except String Unit) : ReadTrace :=
  let t := get h h.URL transport
  match t.result with
  | Except.error e => { issued := t.issued, result := Except.error e, handlerCalls := [] }
  | Except.ok b =>
      let _ := handler { Data := b }
      { issued := t.issued, result := Except.ok (), handlerCalls := [{ Data := b }] }

/-- Model of `bindings.OperationKind` restricted to what this package
uses. -/
inductive OperationKind where
  | create
deriving Repr, DecidableEq

/-- Model of `HTTPSource.Operations`. -/
def Operations : List OperationKind :=
  [OperationKind.create]

/-- Model of `bindings.InvokeRequest` as this package reads it (only
`Data` is used). -/
structure InvokeRequest where
  Data : List Nat
deriving Repr, DecidableEq

/-- Model of `bindings.InvokeResponse`. -/
structure InvokeResponse where
  Data : List Nat
  Metadata : List (String × String)
deriving Repr, DecidableEq

/-- Request built by `HTTPSource.Invoke` of the flat variant: the
configured method and URL, the caller payload, the JSON content type, and
credentials. -/
def invokeRequest (h : httpMetadata) (req : InvokeRequest) : Request :=
  addCredentials
    ((newRequest h.Method h.URL req.Data).setHeader
      "Content-Type" "application/json; charset=utf-8")
    h.User h.Password

/-- Observable behaviour of one `Invoke` call of the flat variant. -/
structure InvokeTrace where
  issued : Request
  result : Except String InvokeResponse
  bodyClosed : Bool

/-- Model of `HTTPSource.Invoke` of the flat variant: issue the request;
on a response, read the body (returning before the close when `ReadAll`
fails), close it, and return the data with the status line as metadata. -/
def Invoke (h : httpMetadata) (req : InvokeRequest)
    (transport : Request → DoOutcome) : InvokeTrace :=
  let r := invokeRequest h req
  match transport r with
  | DoOutcome.doErr e => { issued := r, result := Except.error e, bodyClosed := false }
  | DoOutcome.ok resp =>
    match resp.bodyRead with
    | Except.error e => { issued := r, result := Except.error e, bodyClosed := false }
    | Except.ok data =>
        { issued := r,
          result := Except.ok { Data := data, Metadata := [("status", resp.Status)] },
          bodyClosed := true }

namespace Nested

/-- Model of the `credentials` struct of the nested variant. -/
structure credentials where
  User : String
  Password : String
deriving Repr, DecidableEq

/-- Model of the `httpMetadata` struct of the nested variant: the
credentials are a single optional composite value (`nil` pointer models
as `none`). -/
structure httpMetadata where
  URL : String
  Method : String
  Credentials : Option credentials
deriving Repr, DecidableEq

/-- Model of `addCredentials` of the nested variant: the header is added
only when the credentials pointer is non-nil and both fields are
non-empty. -/
def addCredentials (req : Request) (creds : Option credentials) : Request :=
  match creds with
  | some c =>
      if c.User ≠ "" ∧ c.Password ≠ "" then addBasicAuthHeader req c.User c.Password
      else req
  | none => req

/-- Model of `json.Unmarshal` filling the `*credentials` field: a missing
field or JSON null leaves the nil pointer, an object is parsed field by
field, any other JSON value is a type error. -/
def unmarshalCredentialsField (fields : List (String × Json)) : Except String (Option credentials) :=
  match jsonLookup fields "credentials" with
  | none => Except.ok none
  | some Json.null => Except.ok none
  | some (Json.obj cfields) =>
      (match parseStringField cfields "user" with
       | Except.error e => Except.error e
       | Except.ok u =>
         match parseStringField cfields "password" with
         | Except.error e => Except.error e
         | Except.ok p => Except.ok (some { User := u, Password := p }))
  | some _ => Except.error "json: cannot unmarshal value into credentials"

/-- Model of `json.Unmarshal` into the nested `httpMetadata` struct. -/
def unmarshalHttpMetadata : Json → Except String httpMetadata
  | Json.null => Except.ok { URL := "", Method := "", Credentials := none }
  | Json.obj fields =>
      (match parseStringField fields "url" with
       | Except.error e => Except.error e
       | Except.ok u =>
         match parseStringField fields "method" with
         | Except.error e => Except.error e
         | Except.ok m =>
           match unmarshalCredentialsField fields with
           | Except.error e => Except.error e
           | Except.ok c => Except.ok { URL := u, Method := m, Credentials := c })
  | _ => Except.error "json: cannot unmarshal value into httpMetadata"

/-- Model of `HTTPSource.Init` of the nested variant. -/
def Init (props : List (String × String)) : Except String httpMetadata :=
  match jsonMarshal (GoValue.strMap props) with
  | Except.error e => Except.error e
  | Except.ok b =>
    match unmarshalHttpMetadata b with
    | Except.error e => Except.error e
    | Except.ok m => Except.ok m

/-- Request built by `HTTPSource.get` of the nested variant. -/
def getRequest (h : httpMetadata) (url : String) : Request :=
  addCredentials (newRequest "GET" url []) h.Credentials

/-- Model of `HTTPSource.get` of the nested variant; the control flow is
identical to the flat variant, only the credential attachment differs. -/
def get (h : httpMetadata) (url : String) (transport : Request → DoOutcome) : GetTrace :=
  let req := getRequest h url
  match transport req with
  | DoOutcome.doErr e => { issued := req, result := Except.error e, bodyClosed := false }
  | DoOutcome.ok resp =>
    match resp.bodyRead with
    | Except.error e => { issued := req, result := Except.error e, bodyClosed := false }
    | Except.ok b => { issued := req, result := Except.ok b, bodyClosed := true }

/-- Model of `HTTPSource.Read` of the nested variant; as in the flat
variant the handler result is discarded. -/
def Read (h : httpMetadata) (transport : Request → DoOutcome)
    (handler : ReadResponse → Except String Unit) : ReadTrace :=
  let t := get h h.URL transport
  match t.result with
  | Except.error e => { issued := t.issued, result := Except.error e, handlerCalls := [] }
  | Except.ok b =>
      let _ := handler { Data := b }
      { issued := t.issued, result := Except.ok (), handlerCalls := [{ Data := b }] }

/-- Request built by `HTTPSource.Invoke` of the nested variant: note the
hardcoded `POST` method. -/
def invokeRequest (h : httpMetadata) (req : InvokeRequest) : Request :=
  addCredentials
    ((newRequest "POST" h.URL req.Data).setHeader
      "Content-Type" "application/json; charset=utf-8")
    h.Credentials

/-- Observable behaviour of one `Invoke` call of the nested variant: the
success value is `none`, mirroring the `nil, nil` return. -/
structure InvokeTrace where
  issued : Request
  result : Except String (Option InvokeResponse)
  bodyClosed : Bool

/-- Model of `HTTPSource.Invoke` of the nested variant: issue the
request; on a response, close the body without reading it and return
`nil, nil` — no data, no status metadata. -/
def Invoke (h : httpMetadata) (req : InvokeRequest)
    (transport : Request → DoOutcome) : InvokeTrace :=
  let r := invokeRequest h req
  match transport r with
  | DoOutcome.doErr e => { issued := r, result := Except.error e, bodyClosed := false }
  | DoOutcome.ok _ => { issued := r, result := Except.ok none, bodyClosed := true }

end Nested

/-! Helper lemmas shared by several claim theorems. -/

/-- Value stored for a key in the property bag, with the empty string for
a missing key (the zero value of a Go string field). -/
def lookupD (props : List (String × String)) (k : String) : String :=
  ((props.find? (fun p => p.1 == k)).map (fun p => p.2)).getD ""

lemma setHeader_method (r : Request) (k v : String) :
    (r.setHeader k v).method = r.method := rfl

lemma setHeader_url (r : Request) (k v : String) :
    (r.setHeader k v).url = r.url := rfl

lemma addCredentials_method (r : Request) (u p : String) :
    (addCredentials r u p).method = r.method := by
  unfold addCredentials addBasicAuthHeader
  split <;> rfl

lemma addCredentials_url (r : Request) (u p : String) :
    (addCredentials r u p).url = r.url := by
  unfold addCredentials addBasicAuthHeader
  split <;> rfl

lemma nested_addCredentials_method (r : Request) (c : Option Nested.credentials) :
    (Nested.addCredentials r c).method = r.method := by
  cases c with
  | none => rfl
  | some c =>
      simp only [Nested.addCredentials]
      split <;> rfl

lemma nested_addCredentials_url (r : Request) (c : Option Nested.credentials) :
    (Nested.addCredentials r c).url = r.url := by
  cases c with
  | none => rfl
  | some c =>
      simp only [Nested.addCredentials]
      split <;> rfl

lemma get_issued (h : httpMetadata) (url : String) (transport : Request → DoOutcome) :
    (get h url transport).issued = getRequest h url := by
  simp only [get]
  split
  · rfl
  · split <;> rfl

lemma Read_issued (h : httpMetadata) (transport : Request → DoOutcome)
    (handler : ReadResponse → Except String Unit) :
    (Read h transport handler).issued = getRequest h h.URL := by
  simp only [Read]
  split <;> simp [get_issued]

lemma Invoke_issued (h : httpMetadata) (req : InvokeRequest)
    (transport : Request → DoOutcome) :
    (Invoke h req transport).issued = invokeRequest h req := by
  simp only [Invoke]
  split
  · rfl
  · split <;> rfl

lemma nested_get_issued (h : Nested.httpMetadata) (url : String)
    (transport : Request → DoOutcome) :
    (Nested.get h url transport).issued = Nested.getRequest h url := by
  simp only [Nested.get]
  split
  · rfl
  · split <;> rfl

lemma nested_Read_issued (h : Nested.httpMetadata) (transport : Request → DoOutcome)
    (handler : ReadResponse → Except String Unit) :
    (Nested.Read h transport handler).issued = Nested.getRequest h h.URL := by
  simp only [Nested.Read]
  split <;> simp [nested_get_issued]

lemma nested_Invoke_issued (h : Nested.httpMetadata) (req : InvokeRequest)
    (transport : Request → DoOutcome) :
    (Nested.Invoke h req transport).issued = Nested.invokeRequest h req := by
  simp only [Nested.Invoke]
  split <;> rfl

lemma find?_map_str (props : List (String × String)) (k : String) :
    (props.map (fun p => (p.1, Json.str p.2))).find? (fun q => q.1 == k)
      = (props.find? (fun p => p.1 == k)).map (fun p => (p.1, Json.str p.2)) := by
  induction props with
  | nil => rfl
  | cons p ps ih =>
      cases hp : (p.1 == k) <;> simp [List.find?, hp, ih]

lemma parseStringField_marshal (props : List (String × String)) (k : String) :
    parseStringField (props.map (fun p => (p.1, Json.str p.2))) k
      = Except.ok (lookupD props k) := by
  unfold parseStringField jsonLookup lookupD
  rw [find?_map_str]
  cases props.find? (fun p => p.1 == k) <;> rfl

/-- Flat `Init` on any string-to-string property bag: it succeeds and
stores, for each field, the bag value or the empty string. -/
lemma Init_eq (props : List (String × String)) :
    Init props = Except.ok
      { URL := lookupD props "url", Method := lookupD props "method",
        User := lookupD props "user", Password := lookupD props "password" } := by
  unfold Init jsonMarshal unmarshalHttpMetadata
  simp [parseStringField_marshal]

lemma jsonLookup_marshal (props : List (String × String)) (k : String) :
    jsonLookup (props.map (fun p => (p.1, Json.str p.2))) k
      = (props.find? (fun p => p.1 == k)).map (fun p => Json.str p.2) := by
  unfold jsonLookup
  rw [find?_map_str]
  cases props.find? (fun p => p.1 == k) <;> rfl

/-- Nested `Init` on a property bag without a `credentials` key: it
succeeds, stores url and method, and leaves the credentials nil. -/
lemma nested_Init_eq (props : List (String × String))
    (hc : props.find? (fun p => p.1 == "credentials") = none) :
    Nested.Init props = Except.ok
      { URL := lookupD props "url", Method := lookupD props "method",
        Credentials := none } := by
  unfold Nested.Init jsonMarshal Nested.unmarshalHttpMetadata Nested.unmarshalCredentialsField
  simp [parseStringField_marshal, jsonLookup_marshal, hc]

/-- Value of a `Basic` authorization header for a user and password, as
the spec describes it: `Basic base64(user:password)`. -/
def basicAuthValue (user password : String) : String :=
  "Basic " ++ base64Encode (strBytes (user ++ ":" ++ password))

/-- Authorization header the spec expects for flat credentials: present
exactly when both fields are non-empty. -/
def expectedAuth (user password : String) : Option String :=
  if user ≠ "" ∧ password ≠ "" then some (basicAuthValue user password) else none

/-- Authorization header the spec expects for the optional composite
credentials value. -/
def expectedAuthNested : Option Nested.credentials → Option String
  | none => none
  | some c => expectedAuth c.User c.Password

lemma headerGet_getRequest (h : httpMetadata) (url : String) :
    headerGet (getRequest h url).headers "Authorization"
      = expectedAuth h.User h.Password := by
  unfold getRequest addCredentials expectedAuth basicAuthValue addBasicAuthHeader
    newRequest Request.setHeader headerSet headerGet
  split <;> simp

lemma headerGet_invokeRequest (h : httpMetadata) (req : InvokeRequest) :
    headerGet (invokeRequest h req).headers "Authorization"
      = expectedAuth h.User h.Password := by
  unfold invokeRequest addCredentials expectedAuth basicAuthValue addBasicAuthHeader
    newRequest Request.setHeader headerSet headerGet
  split <;> simp [List.find?]

lemma nested_headerGet_getRequest (h : Nested.httpMetadata) (url : String) :
    headerGet (Nested.getRequest h url).headers "Authorization"
      = expectedAuthNested h.Credentials := by
  unfold Nested.getRequest
  cases h.Credentials with
  | none => rfl
  | some c =>
      simp only [Nested.addCredentials, expectedAuthNested]
      unfold expectedAuth basicAuthValue addBasicAuthHeader
        newRequest Request.setHeader headerSet headerGet
      split <;> simp

lemma nested_headerGet_invokeRequest (h : Nested.httpMetadata) (req : InvokeRequest) :
    headerGet (Nested.invokeRequest h req).headers "Authorization"
      = expectedAuthNested h.Credentials := by
  unfold Nested.invokeRequest
  cases h.Credentials with
  | none => rfl
  | some c =>
      simp only [Nested.addCredentials, expectedAuthNested]
      unfold expectedAuth basicAuthValue addBasicAuthHeader
        newRequest Request.setHeader headerSet headerGet
      split <;> simp [List.find?]

lemma Invoke_result_ok (h : httpMetadata) (req : InvokeRequest)
    (transport : Request → DoOutcome) (resp : HttpResponse) (data : List Nat)
    (ht : transport (invokeRequest h req) = DoOutcome.ok resp)
    (hb : resp.bodyRead = Except.ok data) :
    (Invoke h req transport).result
      = Except.ok { Data := data, Metadata := [("status", resp.Status)] } := by
  simp only [Invoke, ht, hb]

lemma nested_Invoke_result_ok (h : Nested.httpMetadata) (req : InvokeRequest)
    (transport : Request → DoOutcome) (resp : HttpResponse)
    (ht : transport (Nested.invokeRequest h req) = DoOutcome.ok resp) :
    (Nested.Invoke h req transport).result = Except.ok none := by
  simp only [Nested.Invoke, ht]

lemma Read_of_get_ok (h : httpMetadata) (transport : Request → DoOutcome)
    (handler : ReadResponse → Except String Unit) (b : List Nat)
    (hres : (get h h.URL transport).result = Except.ok b) :
    (Read h transport handler).result = Except.ok ()
      ∧ (Read h transport handler).handlerCalls = [{ Data := b }] := by
  simp [Read, hres]

lemma Read_of_get_error (h : httpMetadata) (transport : Request → DoOutcome)
    (handler : ReadResponse → Except String Unit) (e : String)
    (hres : (get h h.URL transport).result = Except.error e) :
    (Read h transport handler).result = Except.error e
      ∧ (Read h transport handler).handlerCalls = [] := by
  simp [Read, hres]

/-- One call a caller can make on a ready adapter of the flat variant. -/
inductive Call where
  | read (transport : Request → DoOutcome) (handler : ReadResponse → Except String Unit)
  | invoke (req : InvokeRequest) (transport : Request → DoOutcome)
  | operations

/-- Model of `HTTPSource.Read` as a state transformer on the receiver:
the method body never assigns to `h.metadata`, so the state component is
returned unchanged. -/
def ReadS (h : httpMetadata) (transport : Request → DoOutcome)
    (handler : ReadResponse → Except String Unit) : httpMetadata × ReadTrace :=
  (h, Read h transport handler)

/-- Model of `HTTPSource.Invoke` as a state transformer on the receiver;
no assignment to `h.metadata` occurs in the method body. -/
def InvokeS (h : httpMetadata) (req : InvokeRequest)
    (transport : Request → DoOutcome) : httpMetadata × InvokeTrace :=
  (h, Invoke h req transport)

/-- Model of `HTTPSource.Operations` as a state transformer on the
receiver; the method body reads nothing and assigns nothing. -/
def OperationsS (h : httpMetadata) : httpMetadata × List OperationKind :=
  (h, Operations)

/-- Descriptor after one call on a ready adapter. -/
def step (h : httpMetadata) : Call → httpMetadata
  | Call.read transport handler => (ReadS h transport handler).1
  | Call.invoke req transport => (InvokeS h req transport).1
  | Call.operations => (OperationsS h).1

lemma step_id (h : httpMetadata) (c : Call) : step h c = h := by
  cases c <;> rfl

/-- Sanity check of the base64 model against the example of the spec:
credentials `a` / `b` give `Authorization: Basic YTpi`. -/
lemma basicAuthValue_ab : basicAuthValue "a" "b" = "Basic YTpi" := by decide

/-! Claim theorems. -/

/-- C1 counterexample: in the nested-credentials variant, an adapter
whose descriptor stores method `GET` still issues its invoke request with
method `POST`; the issued method is not the method field of the
descriptor. -/
theorem c1_counterexample :
    (Nested.Invoke { URL := "http://x/api", Method := "GET", Credentials := none }
        { Data := [] } (fun _ => DoOutcome.doErr "conn refused")).issued.method
      ≠ ({ URL := "http://x/api", Method := "GET", Credentials := none }
          : Nested.httpMetadata).Method := by
  decide

/-- C1 amended: in the flat-credentials variant, `Invoke` issues its
request with exactly the method stored in the descriptor; in the
nested-credentials variant it always issues `POST`, ignoring the stored
method. -/
theorem c1_invoke_method :
    (∀ (h : httpMetadata) (req : InvokeRequest) (transport : Request → DoOutcome),
        (Invoke h req transport).issued.method = h.Method)
    ∧ (∀ (h : Nested.httpMetadata) (req : InvokeRequest) (transport : Request → DoOutcome),
        (Nested.Invoke h req transport).issued.method = "POST") := by
  constructor
  · intro h req transport
    rw [Invoke_issued]
    unfold invokeRequest
    rw [addCredentials_method, setHeader_method]
    rfl
  · intro h req transport
    rw [nested_Invoke_issued]
    unfold Nested.invokeRequest
    rw [nested_addCredentials_method, setHeader_method]
    rfl

/-- C2 counterexample: two invoke calls in which the transport returns a
response yet the claim fails.  In the flat variant a response whose body
read fails makes `Invoke` return an error, not success; in the nested
variant `Invoke` returns success but carries no response value at all, so
no metadata status field exists. -/
theorem c2_counterexample :
    (Invoke { URL := "http://x/api", Method := "POST", User := "", Password := "" }
        { Data := [] }
        (fun _ => DoOutcome.ok { Status := "200 OK", bodyRead := Except.error "read failure" })).result
      = Except.error "read failure"
    ∧ (Nested.Invoke { URL := "http://x/api", Method := "POST", Credentials := none }
        { Data := [] }
        (fun _ => DoOutcome.ok { Status := "404 Not Found", bodyRead := Except.ok [] })).result
      = Except.ok none :=
  ⟨rfl, rfl⟩

/-- C2 amended: in the flat-credentials variant, whenever the transport
returns a response and reading its body succeeds, `Invoke` returns
success — whatever the status code — and the metadata of the result holds
a `status` field equal to the actual HTTP status line; in the
nested-credentials variant such a call also returns success at the
transport level, but with a nil response carrying no metadata. -/
theorem c2_invoke_status :
    (∀ (h : httpMetadata) (req : InvokeRequest) (transport : Request → DoOutcome)
        (resp : HttpResponse) (data : List Nat),
        transport (invokeRequest h req) = DoOutcome.ok resp →
        resp.bodyRead = Except.ok data →
        (Invoke h req transport).result
          = Except.ok { Data := data, Metadata := [("status", resp.Status)] })
    ∧ (∀ (h : Nested.httpMetadata) (req : InvokeRequest) (transport : Request → DoOutcome)
        (resp : HttpResponse),
        transport (Nested.invokeRequest h req) = DoOutcome.ok resp →
        (Nested.Invoke h req transport).result = Except.ok none) :=
  ⟨fun h req transport resp data ht hb => Invoke_result_ok h req transport resp data ht hb,
   fun h req transport resp ht => nested_Invoke_result_ok h req transport resp ht⟩

/-- Witness for C2: a concrete 200 OK invoke in each variant. -/
theorem c2_invoke_status_witness :
    (Invoke { URL := "http://x/api", Method := "POST", User := "", Password := "" }
        { Data := [123] }
        (fun _ => DoOutcome.ok { Status := "200 OK", bodyRead := Except.ok [104, 105] })).result
      = Except.ok { Data := [104, 105], Metadata := [("status", "200 OK")] }
    ∧ (Nested.Invoke { URL := "http://x/api", Method := "POST", Credentials := none }
        { Data := [123] }
        (fun _ => DoOutcome.ok { Status := "200 OK", bodyRead := Except.ok [104, 105] })).result
      = Except.ok none :=
  ⟨c2_invoke_status.1 _ _ _ _ _ rfl rfl, c2_invoke_status.2 _ _ _ _ rfl⟩

/-- C3: on the issued request of every `get` (hence every read) and every
`Invoke`, in both variants, the `Authorization` header is present iff
both the configured username and password are non-empty, and then equals
`Basic base64(user:password)`; in every other case no such header is
set. -/
theorem c3_basic_auth_iff :
    (∀ (h : httpMetadata) (url : String) (transport : Request → DoOutcome),
        headerGet (get h url transport).issued.headers "Authorization"
          = expectedAuth h.User h.Password)
    ∧ (∀ (h : httpMetadata) (req : InvokeRequest) (transport : Request → DoOutcome),
        headerGet (Invoke h req transport).issued.headers "Authorization"
          = expectedAuth h.User h.Password)
    ∧ (∀ (h : Nested.httpMetadata) (url : String) (transport : Request → DoOutcome),
        headerGet (Nested.get h url transport).issued.headers "Authorization"
          = expectedAuthNested h.Credentials)
    ∧ (∀ (h : Nested.httpMetadata) (req : InvokeRequest) (transport : Request → DoOutcome),
        headerGet (Nested.Invoke h req transport).issued.headers "Authorization"
          = expectedAuthNested h.Credentials) := by
  refine ⟨?_, ?_, ?_, ?_⟩ <;> intros <;>
    simp [get_issued, Invoke_issued, nested_get_issued, nested_Invoke_issued,
      headerGet_getRequest, headerGet_invokeRequest,
      nested_headerGet_getRequest, nested_headerGet_invokeRequest]

/-- C4, demonstration of the code bug: a read whose round trip succeeds
and whose handler fails still returns success — the source discards the
handler result, in both variants, where the claim (and the spec) say the
handler failure propagates to the caller. -/
theorem c4_handler_failure_ignored :
    (Read { URL := "http://x/feed", Method := "", User := "", Password := "" }
        (fun _ => DoOutcome.ok { Status := "200 OK", bodyRead := Except.ok [1] })
        (fun _ => Except.error "handler failed")).result = Except.ok ()
    ∧ (Nested.Read { URL := "http://x/feed", Method := "", Credentials := none }
        (fun _ => DoOutcome.ok { Status := "200 OK", bodyRead := Except.ok [1] })
        (fun _ => Except.error "handler failed")).result = Except.ok () :=
  ⟨rfl, rfl⟩

/-- C5: in both variants, `Read` issues its request with method `GET` and
with the URL of the descriptor, whatever the configured method. -/
theorem c5_read_issues_get :
    (∀ (h : httpMetadata) (transport : Request → DoOutcome)
        (handler : ReadResponse → Except String Unit),
        (Read h transport handler).issued.method = "GET"
          ∧ (Read h transport handler).issued.url = h.URL)
    ∧ (∀ (h : Nested.httpMetadata) (transport : Request → DoOutcome)
        (handler : ReadResponse → Except String Unit),
        (Nested.Read h transport handler).issued.method = "GET"
          ∧ (Nested.Read h transport handler).issued.url = h.URL) := by
  constructor
  · intro h transport handler
    rw [Read_issued]
    unfold getRequest
    exact ⟨by rw [addCredentials_method]; rfl, by rw [addCredentials_url]; rfl⟩
  · intro h transport handler
    rw [nested_Read_issued]
    unfold Nested.getRequest
    exact ⟨by rw [nested_addCredentials_method]; rfl, by rw [nested_addCredentials_url]; rfl⟩

/-- C6, demonstration of the code bug: when reading the body fails after
a response was obtained, both `get` and the flat `Invoke` return the read
error without ever calling `resp.Body.Close()` — the close sits after the
early return, where the claim (and the spec) demand a close on every exit
path. -/
theorem c6_body_not_closed_on_read_failure :
    (get { URL := "http://x/feed", Method := "", User := "", Password := "" } "http://x/feed"
        (fun _ => DoOutcome.ok { Status := "200 OK", bodyRead := Except.error "read failure" })).result
      = Except.error "read failure"
    ∧ (get { URL := "http://x/feed", Method := "", User := "", Password := "" } "http://x/feed"
        (fun _ => DoOutcome.ok { Status := "200 OK", bodyRead := Except.error "read failure" })).bodyClosed
      = false
    ∧ (Invoke { URL := "http://x/api", Method := "POST", User := "", Password := "" }
        { Data := [] }
        (fun _ => DoOutcome.ok { Status := "200 OK", bodyRead := Except.error "read failure" })).bodyClosed
      = false :=
  ⟨rfl, rfl, rfl⟩

/-- C7: initialization accepts property bags with missing or empty `url`
and `method`.  The flat variant succeeds on every string-to-string bag
and stores the bag value (or the empty string) for each field; the nested
variant succeeds on every bag without a `credentials` entry, storing url
and method and leaving the credentials absent. -/
theorem c7_init_accepts_empty_fields (props : List (String × String)) :
    Init props = Except.ok
      { URL := lookupD props "url", Method := lookupD props "method",
        User := lookupD props "user", Password := lookupD props "password" }
    ∧ (props.find? (fun p => p.1 == "credentials") = none →
        Nested.Init props = Except.ok
          { URL := lookupD props "url", Method := lookupD props "method",
            Credentials := none }) :=
  ⟨Init_eq props, fun hc => nested_Init_eq props hc⟩

/-- Witness for C7: a bag with neither `url` nor `method`. -/
theorem c7_init_accepts_empty_fields_witness :
    Init [("other", "x")] = Except.ok
      { URL := "", Method := "", User := "", Password := "" }
    ∧ Nested.Init [("other", "x")] = Except.ok
      { URL := "", Method := "", Credentials := none } :=
  ⟨(c7_init_accepts_empty_fields [("other", "x")]).1,
   (c7_init_accepts_empty_fields [("other", "x")]).2 rfl⟩

/-- C8: the descriptor of a ready adapter of the flat variant is
unchanged by any sequence of read, invoke and list-operations calls: the
state after the sequence equals the state right after initialization. -/
theorem c8_descriptor_immutable (h0 : httpMetadata) (calls : List Call) :
    calls.foldl step h0 = h0 := by
  induction calls generalizing h0 with
  | nil => rfl
  | cons c cs ih =>
      rw [List.foldl_cons, step_id]
      exact ih h0

/-- C9: flat-variant initialization returns success on every
string-to-string property bag; the marshal and unmarshal error branches
of `Init` are unreachable for such input. -/
theorem c9_flat_init_never_errors (props : List (String × String)) :
    ∃ m, Init props = Except.ok m :=
  ⟨_, Init_eq props⟩

/-- C10: in the flat variant, when the underlying GET succeeds the
handler of `Read` is invoked exactly once, with the body; when the GET
fails the handler is never invoked and `Read` returns exactly the error
of the GET. -/
theorem c10_handler_exactly_once (h : httpMetadata) (transport : Request → DoOutcome)
    (handler : ReadResponse → Except String Unit) :
    (∀ b, (get h h.URL transport).result = Except.ok b →
        (Read h transport handler).handlerCalls = [{ Data := b }]
          ∧ (Read h transport handler).result = Except.ok ())
    ∧ (∀ e, (get h h.URL transport).result = Except.error e →
        (Read h transport handler).handlerCalls = []
          ∧ (Read h transport handler).result = Except.error e) :=
  ⟨fun b hb => ⟨(Read_of_get_ok h transport handler b hb).2,
                (Read_of_get_ok h transport handler b hb).1⟩,
   fun e he => ⟨(Read_of_get_error h transport handler e he).2,
                (Read_of_get_error h transport handler e he).1⟩⟩

/-- Witness for C10: a successful GET delivering one body, and a failing
GET delivering nothing. -/
theorem c10_handler_exactly_once_witness :
    ((Read { URL := "http://x/feed", Method := "", User := "", Password := "" }
        (fun _ => DoOutcome.ok { Status := "200 OK", bodyRead := Except.ok [7] })
        (fun _ => Except.ok ())).handlerCalls = [{ Data := [7] }]
      ∧ (Read { URL := "http://x/feed", Method := "", User := "", Password := "" }
          (fun _ => DoOutcome.ok { Status := "200 OK", bodyRead := Except.ok [7] })
          (fun _ => Except.ok ())).result = Except.ok ())
    ∧ ((Read { URL := "http://x/feed", Method := "", User := "", Password := "" }
          (fun _ => DoOutcome.doErr "conn refused")
          (fun _ => Except.ok ())).handlerCalls = []
      ∧ (Read { URL := "http://x/feed", Method := "", User := "", Password := "" }
          (fun _ => DoOutcome.doErr "conn refused")
          (fun _ => Except.ok ())).result = Except.error "conn refused") :=
  ⟨(c10_handler_exactly_once _ _ _).1 [7] rfl,
   (c10_handler_exactly_once _ _ _).2 "conn refused" rfl⟩

end HttpBinding
